import Mathlib

/-!
Verification of the morphological-indices QGIS plugin
(`gradiente_algorithm.py`, `elongacion_algorithm.py`).

The numeric pipeline is shallowly embedded: Python floats are modelled as
exact rationals (`ℚ`) wherever the source only performs field arithmetic and
comparisons, and as reals (`ℝ`) where a square root is taken.  `math.isfinite`
checks in the source are vacuous in this exact-arithmetic model and are noted
where they occur.  Feature records are reduced to their coordinate attributes;
layer I/O, plotting and report templating are out of scope.
-/

/-- A river / elevation sample point with the three coordinate attributes
`X`, `Y`, `Z` read by `_detectar_campos_coordenadas`. -/
structure Punto where
  x : ℚ
  y : ℚ
  z : ℚ
deriving DecidableEq, Repr

instance : Inhabited Punto := ⟨⟨0, 0, 0⟩⟩

/-- Embeds `_clasificar_elongacion` of `elongacion_algorithm.py` (lines
393-410): the 8-way classification of the elongation index. -/
def clasificarElongacion (indice : ℚ) : String :=
  if indice < 0.22 then "Muy alargada"
  else if indice < 0.30 then "Alargada"
  else if indice < 0.37 then "Ligeramente alargada"
  else if indice < 0.45 then "Ni alargada ni ensanchada"
  else if indice ≤ 0.60 then "Ligeramente ensanchada"
  else if indice ≤ 0.80 then "Ensanchada"
  else if indice ≤ 1.20 then "Muy ensanchada"
  else "Rodeando el desague"

/-- The classification partition exactly as the spec words it (§3): eight
half-open ranges.  The Spanish return strings of the code stand for the
spec's enum labels: "Muy alargada" = VeryElongated, "Alargada" = Elongated,
"Ligeramente alargada" = SlightlyElongated, "Ni alargada ni ensanchada" =
Intermediate, "Ligeramente ensanchada" = SlightlyWidened, "Ensanchada" =
Widened, "Muy ensanchada" = VeryWidened, "Rodeando el desague" =
CircularAroundOutlet. -/
def clasificacionSpec (re : ℚ) : String :=
  if re < 0.22 then "Muy alargada"
  else if 0.22 ≤ re ∧ re < 0.30 then "Alargada"
  else if 0.30 ≤ re ∧ re < 0.37 then "Ligeramente alargada"
  else if 0.37 ≤ re ∧ re < 0.45 then "Ni alargada ni ensanchada"
  else if 0.45 ≤ re ∧ re ≤ 0.60 then "Ligeramente ensanchada"
  else if 0.60 < re ∧ re ≤ 0.80 then "Ensanchada"
  else if 0.80 < re ∧ re ≤ 1.20 then "Muy ensanchada"
  else "Rodeando el desague"

/-- Embeds the loop body of `_calcular_gradiente_slk` (lines 345-364):
given the previous point's elevation `z1` and cumulative distance `d1`,
emits one gradient per remaining (elevation, distance) pair.
`delta_z = z2 - z1`, `delta_dist = dist2 - dist1`; a gradient is `0.0` when
`abs delta_dist < 1e-6` (the `math.isfinite` re-check on the quotient is
vacuous over exact rationals). -/
def slkSegmentos : ℚ → ℚ → List ℚ → List ℚ → List ℚ
  | _, _, [], _ => []
  | _, _, _ :: _, [] => []
  | z1, d1, z2 :: zs, d2 :: ds =>
      let delta_z := z2 - z1
      let delta_dist := d2 - d1
      let gradiente := if |delta_dist| < 1e-6 then 0 else delta_z / delta_dist
      gradiente :: slkSegmentos z2 d2 zs ds

/-- Embeds `_calcular_gradiente_slk` (lines 341-366): `gradientes = [0.0]`
followed by one gradient per consecutive pair of (elevation, cumulative
distance).  In the pipeline both input lists have the same length (one entry
per ordered point). -/
def calcularGradienteSlk : List ℚ → List ℚ → List ℚ
  | z :: zs, d :: ds => 0 :: slkSegmentos z d zs ds
  | _, _ => [0]

/-- Embeds the loop body of `_calcular_puntos_medios` (lines 372-376):
`punto_medio = dist1 + (dist2 - dist1) / 2` for each consecutive pair. -/
def puntosMediosAux : ℚ → List ℚ → List ℚ
  | _, [] => []
  | d1, d2 :: ds => (d1 + (d2 - d1) / 2) :: puntosMediosAux d2 ds

/-- Embeds `_calcular_puntos_medios` (lines 368-378): `puntos_medios = [0.0]`
followed by the midpoints of consecutive cumulative distances. -/
def calcularPuntosMedios : List ℚ → List ℚ
  | [] => [0]
  | d :: ds => 0 :: puntosMediosAux d ds

/-- The SL-K segment values exactly as claim C1 words them, per segment `i`:
`ΔH = z[i] - z[i+1]`, `ΔL = distances[i+1] - distances[i]`,
`L = (distances[i] + distances[i+1]) / 2`, value `(ΔH/ΔL) × L`, with `0.0`
when `abs ΔL < 1e-6` or `L < 1e-6`. -/
def slkClaimSegmentos : ℚ → ℚ → List ℚ → List ℚ → List ℚ
  | _, _, [], _ => []
  | _, _, _ :: _, [] => []
  | z1, d1, z2 :: zs, d2 :: ds =>
      let deltaH := z1 - z2
      let deltaL := d2 - d1
      let L := (d1 + d2) / 2
      let v := if |deltaL| < 1e-6 ∨ L < 1e-6 then 0 else deltaH / deltaL * L
      v :: slkClaimSegmentos z2 d2 zs ds

/-- The full SL-K output array as claim C1 words it: one value per segment,
and the final point duplicating the last computed segment value so that the
output length equals the point count. -/
def slkClaim : List ℚ → List ℚ → List ℚ
  | z :: zs, d :: ds =>
      let segs := slkClaimSegmentos z d zs ds
      segs ++ (segs.getLast?.map (fun v => [v])).getD []
  | _, _ => []

/-- Valid gradients selected by `_calcular_gradientes_normalizados`
(line 382): elements of `gradientes_slk[1:]` with `abs g > 1e-6`
(`math.isfinite` is vacuous over exact rationals). -/
def validosNorm (gradientes_slk : List ℚ) : List ℚ :=
  gradientes_slk.tail.filter (fun g => 1e-6 < |g|)

/-- The arithmetic mean `np.mean(valores_validos)` used for normalization
(line 388). -/
def mediaValidos (gradientes_slk : List ℚ) : ℚ :=
  (validosNorm gradientes_slk).sum / (validosNorm gradientes_slk).length

/-- Embeds `_calcular_gradientes_normalizados` (lines 380-402): when no
valid gradients exist the result is all zeros; otherwise every entry is
divided by the MEAN of the valid gradients, guarded by `abs media > 1e-6`
(the two `math.isfinite` checks are vacuous over exact rationals). -/
def calcularGradientesNormalizados (gradientes_slk : List ℚ) : List ℚ :=
  if validosNorm gradientes_slk = [] then
    gradientes_slk.map (fun _ => 0)
  else
    let media := mediaValidos gradientes_slk
    gradientes_slk.map (fun g => if 1e-6 < |media| then g / media else 0)

/-- The linear-interpolation median of claim C4's words ("the median of the
valid nonzero gradient values"), `np.median` convention: mean of the two
middle order statistics for even length. -/
def medianaClaim (l : List ℚ) : ℚ :=
  let s := l.insertionSort (· ≤ ·)
  let n := s.length
  if n = 0 then 0
  else if n % 2 = 1 then s.getD (n / 2) 0
  else (s.getD (n / 2 - 1) 0 + s.getD (n / 2) 0) / 2

/-- Normalization exactly as claim C4 words it: divide every value by the
median of the valid nonzero gradient values; all zeros when the median is
about 0 or no valid values exist. -/
def normalizadosClaim (gradientes_slk : List ℚ) : List ℚ :=
  let validos := gradientes_slk.filter (fun g => 1e-6 < |g|)
  if validos = [] then gradientes_slk.map (fun _ => 0)
  else
    let m := medianaClaim validos
    gradientes_slk.map (fun g => if 1e-6 < |m| then g / m else 0)

/-- The descending-elevation order used by `puntos.sort(key=lambda p: p.z,
reverse=True)` in `_leer_puntos_ordenados` (line 313). -/
def ordenZ (a b : Punto) : Prop := b.z ≤ a.z

instance : DecidableRel ordenZ := fun a b => inferInstanceAs (Decidable (b.z ≤ a.z))

instance : IsTotal Punto ordenZ := ⟨fun a b => le_total b.z a.z⟩

instance : IsTrans Punto ordenZ := ⟨fun _ _ _ h1 h2 => le_trans h2 h1⟩

/-- Embeds the ordering step of `_leer_puntos_ordenados` (line 313): a stable
sort of the valid points by elevation, from highest to lowest (Python's
stable `list.sort` with `reverse=True`). -/
def ordenarPuntos (pts : List Punto) : List Punto :=
  pts.insertionSort ordenZ

/-- Embeds `_leer_puntos_ordenados` (lines 281-317): invalid features
(null / unparseable coordinates) are modelled as `none` and skipped; fewer
than 2 valid points raises; otherwise the points sorted by descending
elevation are returned. -/
def leerPuntosOrdenados (raw : List (Option Punto)) : Except String (List Punto) :=
  let puntos := raw.filterMap id
  if puntos.length < 2 then Except.error "No se encontraron suficientes puntos validos"
  else Except.ok (ordenarPuntos puntos)

/-- Embeds the body of `processAlgorithm` of `gradiente_algorithm.py` up to
the creation of the output features (lines 181-216): reading and ordering
the points can raise; the output layer receives one feature per ordered
point (computed attribute fields elided — see the per-function embeddings).
The `len(puntos_data) < 2` re-check of line 183 is subsumed by the identical
check inside `_leer_puntos_ordenados`. -/
def cuerpoGradiente (raw : List (Option Punto)) : Except String (List Punto) :=
  (leerPuntosOrdenados raw).map (fun puntos_data => puntos_data)

/-- Embeds `processAlgorithm` of `gradiente_algorithm.py` (lines 143-263)
with its top-level `except` handler (lines 255-263): any exception raised in
the body is caught, an error is logged, and the method returns normally with
an empty result — no exception escapes, and on the error path no output
features are produced. -/
def processAlgorithmGradiente (raw : List (Option Punto)) : List Punto :=
  match cuerpoGradiente raw with
  | Except.error _ => []
  | Except.ok res => res

/-- The penalized horizontal distance of claim C3's words: plain
`sqrt(dx²+dy²)` for descending or flat candidates, multiplied by 3.0 when
the candidate's `z` is greater than the current point's `z`. -/
noncomputable def pdistClaim (cur cand : Punto) : ℝ :=
  let d := Real.sqrt (((cand.x - cur.x : ℚ) : ℝ) ^ 2 + ((cand.y - cur.y : ℚ) : ℝ) ^ 2)
  if cur.z < cand.z then 3 * d else d

/-- The ordering claimed by C3, as a predicate on (input, output): the output
is a permutation of the input that starts at a point of maximal elevation and
in which every step goes to the remaining point of minimum penalized
horizontal distance — hence each chosen successor is at most as far
(penalized) as every point placed later in the sequence. -/
def IsGreedyOrder (input out : List Punto) : Prop :=
  out.Perm input ∧
  (∀ p ∈ input, p.z ≤ (out.headD default).z) ∧
  ∀ i j, i + 1 < out.length → i + 1 < j → j < out.length →
    pdistClaim (out.getD i default) (out.getD (i + 1) default) ≤
      pdistClaim (out.getD i default) (out.getD j default)

/-- Python's `max(iterable, key=f)` over a nonempty list: the FIRST element
attaining the maximal key (replacement only on strictly greater key). -/
def pymaxBy (f : Punto → ℚ) (hd : Punto) (tl : List Punto) : Punto :=
  tl.foldl (fun acc p => if f acc < f p then p else acc) hd

/-- Python's `min(iterable, key=f)` over a nonempty list: the FIRST element
attaining the minimal key (replacement only on strictly smaller key). -/
def pyminBy (f : Punto → ℚ) (hd : Punto) (tl : List Punto) : Punto :=
  tl.foldl (fun acc p => if f p < f acc then p else acc) hd

/-- Embeds the tie-break of `_agrupar_puntos_por_cuenca` lines 319-322: if
several points share the maximal elevation, `max(puntos_z_max, key=x)`,
otherwise the single element. -/
def desempateMax (empatados : List Punto) (fallback : Punto) : Punto :=
  match empatados with
  | [] => fallback
  | [t] => t
  | t :: u :: r => pymaxBy (fun s => s.x) t (u :: r)

/-- Embeds the tie-break of `_agrupar_puntos_por_cuenca` lines 324-327: if
several points share the minimal elevation, `min(puntos_z_min, key=x)`,
otherwise the single element. -/
def desempateMin (empatados : List Punto) (fallback : Punto) : Punto :=
  match empatados with
  | [] => fallback
  | [t] => t
  | t :: u :: r => pyminBy (fun s => s.x) t (u :: r)

/-- Embeds the per-basin part of `_agrupar_puntos_por_cuenca` (lines
302-334): `none` when the basin holds fewer than 2 points (skipped with a
warning); otherwise the (max-elevation, min-elevation) pair, where ties in
`z` within an absolute tolerance of `1e-6` are resolved by maximal
(resp. minimal) `x`. -/
def agruparExtremos (puntos_en_cuenca : List Punto) : Option (Punto × Punto) :=
  match puntos_en_cuenca with
  | [] => none
  | [_] => none
  | p :: q :: rest =>
      let l := p :: q :: rest
      let punto_max0 := pymaxBy (fun t => t.z) p (q :: rest)
      let punto_min0 := pyminBy (fun t => t.z) p (q :: rest)
      let puntos_z_max := l.filter (fun t => |t.z - punto_max0.z| < 1e-6)
      let puntos_z_min := l.filter (fun t => |t.z - punto_min0.z| < 1e-6)
      some (desempateMax puntos_z_max punto_max0, desempateMin puntos_z_min punto_min0)

/-- A basin polygon feature: a feature id and the `Shape_Area` attribute,
`none` when the attribute is null.  The polygon geometry itself only enters
through the externally supplied containment predicate. -/
structure CuencaRaw where
  fid : ℕ
  area : Option ℚ
deriving DecidableEq, Repr

/-- Assignment `datos_cuencas[area] = {...}` on a Python dict keyed by the
area value (line 247 of `elongacion_algorithm.py`): an existing key keeps
its position and gets the new value, a new key is appended. -/
def insertarPorArea (m : List (ℚ × CuencaRaw)) (a : ℚ) (f : CuencaRaw) :
    List (ℚ × CuencaRaw) :=
  if m.any (fun e => e.1 = a) then
    m.map (fun e => if e.1 = a then (a, f) else e)
  else
    m ++ [(a, f)]

/-- Embeds `_leer_datos_cuencas` (lines 235-258): features whose area
attribute is null or `≤ 0` are skipped; the rest are stored in a dict KEYED
BY THE AREA VALUE, so a later feature with exactly the same area overwrites
the earlier one. -/
def leerDatosCuencas (feats : List CuencaRaw) : List (ℚ × CuencaRaw) :=
  feats.foldl
    (fun m f =>
      match f.area with
      | none => m
      | some a => if a ≤ 0 then m else insertarPorArea m a f)
    []

/-- Dict lookup by area key (used at line 487 via `area_to_feature.get`). -/
def buscarPorArea (m : List (ℚ × CuencaRaw)) (a : ℚ) : Option CuencaRaw :=
  (m.find? (fun e => decide (e.1 = a))).map Prod.snd

/-- Embeds `_agrupar_puntos_por_cuenca` (lines 293-337): for each stored
basin, the points it contains (containment is the external geometry
predicate `dentro`, covering `contains` OR `intersects`) are collected;
basins with fewer than 2 points are skipped with a warning; for the rest
the extremal-elevation pair is selected. -/
def agruparPuntosPorCuenca (datos : List (ℚ × CuencaRaw)) (pts : List Punto)
    (dentro : CuencaRaw → Punto → Bool) : List (ℚ × Punto × Punto) :=
  datos.filterMap (fun e =>
    (agruparExtremos (pts.filter (dentro e.2))).map (fun mm => (e.1, mm.1, mm.2)))

/-- Embeds the body of `processAlgorithm` of `elongacion_algorithm.py`
(lines 152-169): reading basins and points, raising when either collection
is empty or when no basin could be associated with at least 2 points. -/
def cuerpoElongacion (cuencasRaw : List CuencaRaw) (puntosRaw : List (Option Punto))
    (dentro : CuencaRaw → Punto → Bool) : Except String (List (ℚ × Punto × Punto)) :=
  let datos_cuencas := leerDatosCuencas cuencasRaw
  let datos_puntos := puntosRaw.filterMap id
  if datos_cuencas = [] ∨ datos_puntos = [] then
    Except.error "No se encontraron datos validos para procesar"
  else
    let cuencas_con_puntos := agruparPuntosPorCuenca datos_cuencas datos_puntos dentro
    if cuencas_con_puntos = [] then
      Except.error "No se pudieron asociar puntos con cuencas"
    else Except.ok cuencas_con_puntos

/-- Embeds `processAlgorithm` of `elongacion_algorithm.py` (lines 109-209)
with its top-level `except` handler (lines 205-209): every exception raised
in the body is caught and the method returns normally; on the error path no
result records are produced. -/
def processAlgorithmElongacion (cuencasRaw : List CuencaRaw)
    (puntosRaw : List (Option Punto)) (dentro : CuencaRaw → Punto → Bool) :
    List (ℚ × Punto × Punto) :=
  match cuerpoElongacion cuencasRaw puntosRaw dentro with
  | Except.error _ => []
  | Except.ok res => res

/-- Per-basin result record of `_calcular_elongacion_todas_cuencas`
(numeric fields only; the classification string is
`clasificarElongacion` applied to the index). -/
structure ResultadoElongacion where
  distancia_max : ℝ
  diametro_equivalente : ℝ
  indice_elongacion : ℝ

/-- Embeds the per-basin computation of `_calcular_elongacion_todas_cuencas`
(lines 349-363): 3D distance between the extremal points, equivalent circle
diameter `2·sqrt(area/π)`, and the elongation index with the
`distancia_max > 0` guard. -/
noncomputable def calcularElongacionCuenca (area : ℚ) (punto_max punto_min : Punto) :
    ResultadoElongacion :=
  let dx := ((punto_max.x - punto_min.x : ℚ) : ℝ)
  let dy := ((punto_max.y - punto_min.y : ℚ) : ℝ)
  let dz := ((punto_max.z - punto_min.z : ℚ) : ℝ)
  let distancia_max := Real.sqrt (dx ^ 2 + dy ^ 2 + dz ^ 2)
  let diametro_equivalente := 2 * Real.sqrt ((area : ℝ) / Real.pi)
  let indice_elongacion :=
    if 0 < distancia_max then diametro_equivalente / distancia_max else 0
  ⟨distancia_max, diametro_equivalente, indice_elongacion⟩

/-- Embeds the horizontal segment length of `_calcular_distancias_acumuladas`
(lines 327-329): `sqrt(dx**2 + dy**2)` — the 2D distance, `z` unused. -/
noncomputable def distanciaSegmento (p1 p2 : Punto) : ℝ :=
  Real.sqrt (((p2.x - p1.x : ℚ) : ℝ) ^ 2 + ((p2.y - p1.y : ℚ) : ℝ) ^ 2)

/-- Embeds the accumulation loop of `_calcular_distancias_acumuladas`
(lines 323-336): each segment shorter than `1e-6` is clamped to `1e-6`
(`if dist < 1e-6: dist = 1e-6`, i.e. `max 1e-6 dist`) before being added to
the running total. -/
noncomputable def distanciasDesde (p : Punto) (acc : ℝ) : List Punto → List ℝ
  | [] => []
  | q :: rest =>
      let dist_segmento := max (1e-6 : ℝ) (distanciaSegmento p q)
      (acc + dist_segmento) :: distanciasDesde q (acc + dist_segmento) rest

/-- Embeds `_calcular_distancias_acumuladas` (lines 319-339):
`distancias = [0.0]` followed by the clamped cumulative 2D distances. -/
noncomputable def calcularDistanciasAcumuladas (puntos_data : List Punto) : List ℝ :=
  match puntos_data with
  | [] => [0]
  | p :: rest => 0 :: distanciasDesde p 0 rest

/-- The cumulative distances exactly as claim C6 words them: the same
accumulation with the same `1e-6` clamp, but over the 3D Euclidean distance
`sqrt(dx²+dy²+dz²)`. -/
noncomputable def distanciasDesde3dClaim (p : Punto) (acc : ℝ) : List Punto → List ℝ
  | [] => []
  | q :: rest =>
      let d := max (1e-6 : ℝ)
        (Real.sqrt (((q.x - p.x : ℚ) : ℝ) ^ 2 + ((q.y - p.y : ℚ) : ℝ) ^ 2 +
          ((q.z - p.z : ℚ) : ℝ) ^ 2))
      (acc + d) :: distanciasDesde3dClaim q (acc + d) rest

/-- The full cumulative-distance array as claim C6 words it. -/
noncomputable def distanciasAcumuladas3dClaim (puntos_data : List Punto) : List ℝ :=
  match puntos_data with
  | [] => [0]
  | p :: rest => 0 :: distanciasDesde3dClaim p 0 rest

/-- Modelled from the spec: the linear-interpolation percentile
(`np.percentile` default) used to obtain Q1, Q3 and the median for the
anomaly filter of §4.4, which has no implementation under `src/`.  For a
nonempty list, position `p/100·(n-1)` is interpolated between the two
surrounding order statistics; its integer part is `p·(n-1)/100` in natural
division, exact because the position is nonnegative for `0 ≤ p ≤ 100`. -/
def percentil (p : ℕ) (l : List ℚ) : ℚ :=
  let s := l.insertionSort (· ≤ ·)
  let n := s.length
  if n = 0 then 0
  else
    let i : ℕ := p * (n - 1) / 100
    let frac : ℚ := (p : ℚ) / 100 * ((n : ℚ) - 1) - (i : ℚ)
    s.getD i 0 + frac * (s.getD (i + 1) (s.getD i 0) - s.getD i 0)

/-- Modelled from the spec: the finite nonzero values over which the anomaly
filter of §4.4 computes its quartiles (finiteness is vacuous over exact
rationals). -/
def valoresNoCero (gs : List ℚ) : List ℚ :=
  gs.filter (fun g => g ≠ 0)

/-- Modelled from the spec: Q1 of the filter's valid values. -/
def cuartil1 (gs : List ℚ) : ℚ := percentil 25 (valoresNoCero gs)

/-- Modelled from the spec: Q3 of the filter's valid values. -/
def cuartil3 (gs : List ℚ) : ℚ := percentil 75 (valoresNoCero gs)

/-- Modelled from the spec: the median of the filter's valid values. -/
def medianaFiltro (gs : List ℚ) : ℚ := percentil 50 (valoresNoCero gs)

/-- Modelled from the spec: the one-pass Tukey-fence anomaly filter of §4.4,
which has no implementation under `src/`.  Quartiles are computed over the
finite nonzero values; a value outside `[Q1-3·IQR, Q3+3·IQR]` is replaced
with the median, a value outside `[Q1-1.5·IQR, Q3+1.5·IQR]` but inside the
extreme bounds is clamped to the nearer quartile (Q1 below, Q3 above), and
zero (and non-finite, vacuous here) values pass through unchanged. -/
def filtrarAnomalias (gs : List ℚ) : List ℚ :=
  let validos := valoresNoCero gs
  if validos = [] then gs
  else
    let q1 := cuartil1 gs
    let q3 := cuartil3 gs
    let med := medianaFiltro gs
    let iqr := q3 - q1
    gs.map (fun g =>
      if g = 0 then g
      else if g < q1 - 3 * iqr ∨ q3 + 3 * iqr < g then med
      else if g < q1 - 3 / 2 * iqr then q1
      else if q3 + 3 / 2 * iqr < g then q3
      else g)

section Lemas

/-- Index lemma for the SL-K loop: entry `i` of the emitted gradients is the
guarded quotient over the consecutive pair at positions `i`, `i+1` of the
full lists. -/
theorem slkSegmentos_getD (zs : List ℚ) : ∀ (ds : List ℚ) (z d : ℚ) (i : ℕ),
    i < min zs.length ds.length →
    (slkSegmentos z d zs ds).getD i 0 =
      (if |(d :: ds).getD (i + 1) 0 - (d :: ds).getD i 0| < 1e-6 then 0
       else ((z :: zs).getD (i + 1) 0 - (z :: zs).getD i 0) /
         ((d :: ds).getD (i + 1) 0 - (d :: ds).getD i 0)) := by
  induction zs with
  | nil => intro ds z d i h; simp at h
  | cons z2 zs ih =>
    intro ds z d i h
    cases ds with
    | nil => simp at h
    | cons d2 ds =>
      cases i with
      | zero => simp [slkSegmentos]
      | succ i =>
        have hi : i < min zs.length ds.length := by
          simp only [List.length_cons, Nat.lt_min] at h ⊢
          omega
        simpa [slkSegmentos] using ih ds z2 d2 i hi

/-- Length of the SL-K loop output. -/
theorem slkSegmentos_length (zs : List ℚ) : ∀ (ds : List ℚ) (z d : ℚ),
    (slkSegmentos z d zs ds).length = min zs.length ds.length := by
  induction zs with
  | nil => intro ds z d; simp [slkSegmentos]
  | cons z2 zs ih =>
    intro ds z d
    cases ds with
    | nil => simp [slkSegmentos]
    | cons d2 ds => simp [slkSegmentos, ih, Nat.succ_min_succ]

end Lemas

/-- C1 counterexample: for the spec's own worked example (three colinear
points with elevations 100, 50, 0 at cumulative distances 0, 100, 200) the
code's SL-K array is `[0, -1/2, -1/2]` while the claimed
`(ΔH/ΔL) × L`-with-final-duplicate array is `[25, 75, 75]`. -/
theorem claim_c1_counterexample :
    calcularGradienteSlk [100, 50, 0] [0, 100, 200] ≠
      slkClaim [100, 50, 0] [0, 100, 200] := by
  have h1 : calcularGradienteSlk [100, 50, 0] [0, 100, 200] = [0, -(1 / 2), -(1 / 2)] := by
    norm_num [calcularGradienteSlk, slkSegmentos, abs_lt]
  have h2 : slkClaim [100, 50, 0] [0, 100, 200] = [25, 75, 75] := by
    norm_num [slkClaim, slkClaimSegmentos, abs_lt]
  rw [h1, h2]
  norm_num

/-- C1 amended: `_calcular_gradiente_slk` pads the FIRST entry with `0.0`
(not the last), and entry `i ≥ 1` is the plain slope
`(z[i] - z[i-1]) / (distances[i] - distances[i-1])` — negative on descent,
with no multiplication by the midpoint distance `L` and no `L < 1e-6`
guard; only `|ΔL| < 1e-6` forces `0.0`. -/
theorem claim_c1_amended : ∀ (zs ds : List ℚ), zs.length = ds.length → zs ≠ [] →
    (calcularGradienteSlk zs ds).length = zs.length ∧
    (calcularGradienteSlk zs ds).getD 0 0 = 0 ∧
    ∀ i, i + 1 < zs.length →
      (calcularGradienteSlk zs ds).getD (i + 1) 0 =
        (if |ds.getD (i + 1) 0 - ds.getD i 0| < 1e-6 then 0
         else (zs.getD (i + 1) 0 - zs.getD i 0) / (ds.getD (i + 1) 0 - ds.getD i 0)) := by
  intro zs ds hlen hne
  cases zs with
  | nil => exact absurd rfl hne
  | cons z zs =>
    cases ds with
    | nil => simp at hlen
    | cons d ds =>
      simp only [List.length_cons, Nat.succ.injEq] at hlen
      refine ⟨?_, rfl, ?_⟩
      · simp [calcularGradienteSlk, slkSegmentos_length, hlen]
      · intro i hi
        have hi2 : i < min zs.length ds.length := by
          simp only [List.length_cons] at hi
          omega
        simpa [calcularGradienteSlk] using slkSegmentos_getD zs ds z d i hi2

/-- C1 witness: the amended statement evaluated on the worked example at
segment index 1. -/
theorem claim_c1_witness :
    (calcularGradienteSlk [100, 50, 0] [0, 100, 200]).length = 3 ∧
    (calcularGradienteSlk [100, 50, 0] [0, 100, 200]).getD 0 0 = 0 := by
  have h := claim_c1_amended [100, 50, 0] [0, 100, 200] rfl (by decide)
  exact ⟨h.1, h.2.1⟩

/-- C2: for every nonnegative elongation ratio the code's classification
agrees with the spec's 8-bucket partition, and the boundary values 0.22 and
0.30 classify as "Alargada" (Elongated) and "Ligeramente alargada"
(SlightlyElongated) respectively. -/
theorem claim_c2_clasificacion :
    (∀ re : ℚ, 0 ≤ re → clasificarElongacion re = clasificacionSpec re) ∧
    clasificarElongacion 0.22 = "Alargada" ∧
    clasificarElongacion 0.30 = "Ligeramente alargada" := by
  refine ⟨fun re _ => ?_, by norm_num [clasificarElongacion], by norm_num [clasificarElongacion]⟩
  unfold clasificarElongacion clasificacionSpec
  by_cases h1 : re < 0.22
  · simp [h1]
  · have h1b : 0.22 ≤ re := not_lt.mp h1
    by_cases h2 : re < 0.30
    · simp [h1, h1b, h2]
    · have h2b : 0.30 ≤ re := not_lt.mp h2
      by_cases h3 : re < 0.37
      · simp [h1, h2, h2b, h3]
      · have h3b : 0.37 ≤ re := not_lt.mp h3
        by_cases h4 : re < 0.45
        · simp [h1, h2, h3, h3b, h4]
        · have h4b : 0.45 ≤ re := not_lt.mp h4
          by_cases h5 : re ≤ 0.60
          · simp [h1, h2, h3, h4, h4b, h5]
          · have h5b : 0.60 < re := not_le.mp h5
            by_cases h6 : re ≤ 0.80
            · simp [h1, h2, h3, h4, h5, h5b, h6]
            · have h6b : 0.80 < re := not_le.mp h6
              by_cases h7 : re ≤ 1.20
              · simp [h1, h2, h3, h4, h5, h6, h6b, h7]
              · simp [h1, h2, h3, h4, h5, h6, h7]

/-- C2 witness: the classification agreement evaluated at Re = 1/2. -/
theorem claim_c2_witness :
    clasificarElongacion (1 / 2) = clasificacionSpec (1 / 2) :=
  claim_c2_clasificacion.1 (1 / 2) (by norm_num)

/-- C4 counterexample: for the gradient array `[0, 1, 2, 6]` the valid
values are `[1, 2, 6]` with median 2 but mean 3; the code divides by the
mean, producing `[0, 1/3, 2/3, 2]` instead of the claimed `[0, 1/2, 1, 3]`. -/
theorem claim_c4_counterexample :
    calcularGradientesNormalizados [0, 1, 2, 6] ≠ normalizadosClaim [0, 1, 2, 6] := by
  have h1 : calcularGradientesNormalizados [0, 1, 2, 6] = [0, 1 / 3, 2 / 3, 2] := by
    norm_num [calcularGradientesNormalizados, validosNorm, mediaValidos, abs_lt,
      List.filter, List.cons_ne_nil]
  have h2 : normalizadosClaim [0, 1, 2, 6] = [0, 1 / 2, 1, 3] := by
    norm_num [normalizadosClaim, medianaClaim, abs_lt, List.filter, List.insertionSort,
      List.orderedInsert, List.cons_ne_nil]
  rw [h1, h2]
  norm_num

/-- C4 amended: `_calcular_gradientes_normalizados` divides every gradient
by the arithmetic MEAN (`np.mean`, not the median) of the valid gradients —
the entries after the first whose absolute value exceeds `1e-6` — and
returns all zeros when there are no valid gradients or when the mean's
absolute value is at most `1e-6`. -/
theorem claim_c4_amended : ∀ gs : List ℚ,
    (calcularGradientesNormalizados gs).length = gs.length ∧
    (validosNorm gs = [] → calcularGradientesNormalizados gs = gs.map (fun _ => 0)) ∧
    (validosNorm gs ≠ [] → ∀ i, i < gs.length →
      (calcularGradientesNormalizados gs).getD i 0 =
        (if 1e-6 < |mediaValidos gs| then gs.getD i 0 / mediaValidos gs else 0)) := by
  intro gs
  refine ⟨?_, ?_, ?_⟩
  · unfold calcularGradientesNormalizados
    split <;> simp
  · intro h
    unfold calcularGradientesNormalizados
    rw [if_pos h]
  · intro h i hi
    unfold calcularGradientesNormalizados
    rw [if_neg h]
    rw [List.getD_eq_getElem _ _ (by simpa using hi), List.getElem_map,
      List.getD_eq_getElem _ _ hi]

/-- C4 witness: the amended statement evaluated at `[0, 1, 2, 6]`, index 1. -/
theorem claim_c4_witness :
    (calcularGradientesNormalizados [0, 1, 2, 6]).getD 1 0 =
      (if 1e-6 < |mediaValidos [0, 1, 2, 6]| then
        ([0, 1, 2, 6] : List ℚ).getD 1 0 / mediaValidos [0, 1, 2, 6] else 0) :=
  (claim_c4_amended [0, 1, 2, 6]).2.2
    (by norm_num [validosNorm, List.filter, abs_lt, List.cons_ne_nil]) 1 (by norm_num)

/-- C8 counterexample: the filter is NOT a fixed point on already-filtered
data.  On `[1, 2, 3, 100]` (Q1 = 7/4, Q3 = 109/4, IQR = 51/2) the value 100
is a moderate anomaly and is clamped to Q3 = 109/4; re-running the filter
recomputes the quartiles on `[1, 2, 3, 109/4]` (Q3 = 145/16, IQR = 117/16),
under which 109/4 is again a moderate anomaly and is clamped to 145/16. -/
theorem claim_c8_counterexample :
    filtrarAnomalias (filtrarAnomalias [1, 2, 3, 100]) ≠ filtrarAnomalias [1, 2, 3, 100] := by
  have h1 : filtrarAnomalias [1, 2, 3, 100] = [1, 2, 3, 109 / 4] := by
    norm_num [filtrarAnomalias, valoresNoCero, cuartil1, cuartil3, medianaFiltro, percentil,
      List.insertionSort, List.orderedInsert, List.filter, List.cons_ne_nil]
  have h2 : filtrarAnomalias [1, 2, 3, 109 / 4] = [1, 2, 3, 145 / 16] := by
    norm_num [filtrarAnomalias, valoresNoCero, cuartil1, cuartil3, medianaFiltro, percentil,
      List.insertionSort, List.orderedInsert, List.filter, List.cons_ne_nil]
  rw [h1, h2]
  norm_num

/-- C8 amended (spec-modelled): one pass of the filter behaves as described
— zeros pass through unchanged, and every output entry is either the
corresponding input entry, the median (extreme anomaly), or one of the two
quartiles (moderate anomaly, clamped) — but the filter is not idempotent,
because a second application recomputes the quartiles over the already
clamped data. -/
theorem claim_c8_amended : ∀ gs : List ℚ,
    (filtrarAnomalias gs).length = gs.length ∧
    ∀ i, i < gs.length →
      (gs.getD i 0 = 0 → (filtrarAnomalias gs).getD i 0 = 0) ∧
      ((filtrarAnomalias gs).getD i 0 = gs.getD i 0 ∨
       (filtrarAnomalias gs).getD i 0 = medianaFiltro gs ∨
       (filtrarAnomalias gs).getD i 0 = cuartil1 gs ∨
       (filtrarAnomalias gs).getD i 0 = cuartil3 gs) := by
  intro gs
  by_cases hv : valoresNoCero gs = []
  · have he : filtrarAnomalias gs = gs := by
      simp only [filtrarAnomalias]
      rw [if_pos hv]
    rw [he]
    exact ⟨rfl, fun i hi => ⟨fun hz => hz, Or.inl rfl⟩⟩
  · have he : filtrarAnomalias gs = gs.map (fun g =>
        if g = 0 then g
        else if g < cuartil1 gs - 3 * (cuartil3 gs - cuartil1 gs) ∨
            cuartil3 gs + 3 * (cuartil3 gs - cuartil1 gs) < g then medianaFiltro gs
        else if g < cuartil1 gs - 3 / 2 * (cuartil3 gs - cuartil1 gs) then cuartil1 gs
        else if cuartil3 gs + 3 / 2 * (cuartil3 gs - cuartil1 gs) < g then cuartil3 gs
        else g) := by
      simp only [filtrarAnomalias]
      rw [if_neg hv]
    rw [he]
    refine ⟨by simp, fun i hi => ⟨?_, ?_⟩⟩
    · intro hz
      rw [List.getD_eq_getElem _ _ (by simpa using hi), List.getElem_map]
      rw [List.getD_eq_getElem _ _ hi] at hz
      rw [hz]
      simp
    · rw [List.getD_eq_getElem _ _ (by simpa using hi), List.getElem_map,
        List.getD_eq_getElem _ _ hi]
      split_ifs <;> simp

/-- C8 witness: the amended statement evaluated at `[1, 2, 3, 100]`,
index 3 (the clamped entry). -/
theorem claim_c8_witness :
    (filtrarAnomalias [1, 2, 3, 100]).getD 3 0 = ([1, 2, 3, 100] : List ℚ).getD 3 0 ∨
    (filtrarAnomalias [1, 2, 3, 100]).getD 3 0 = medianaFiltro [1, 2, 3, 100] ∨
    (filtrarAnomalias [1, 2, 3, 100]).getD 3 0 = cuartil1 [1, 2, 3, 100] ∨
    (filtrarAnomalias [1, 2, 3, 100]).getD 3 0 = cuartil3 [1, 2, 3, 100] :=
  ((claim_c8_amended [1, 2, 3, 100]).2 3 (by norm_num)).2

/-- C3 counterexample: `_leer_puntos_ordenados` merely sorts by descending
elevation.  For the points A=(0,0,100), B=(100,0,90), C=(1,0,80) the sort
returns [A, B, C], but a greedy minimum-penalized-distance walk from A must
pick C next (distance 1, descending) rather than B (distance 100,
descending), so the code's order violates the claimed construction. -/
theorem claim_c3_counterexample :
    ¬ IsGreedyOrder [⟨0, 0, 100⟩, ⟨100, 0, 90⟩, ⟨1, 0, 80⟩]
      (ordenarPuntos [⟨0, 0, 100⟩, ⟨100, 0, 90⟩, ⟨1, 0, 80⟩]) := by
  have hord : ordenarPuntos [⟨0, 0, 100⟩, ⟨100, 0, 90⟩, ⟨1, 0, 80⟩] =
      [⟨0, 0, 100⟩, ⟨100, 0, 90⟩, ⟨1, 0, 80⟩] := rfl
  rw [hord]
  rintro ⟨-, -, hmin⟩
  have h := hmin 0 2 (by norm_num) (by norm_num) (by norm_num)
  simp only [List.getD, List.getElem?_cons_zero, List.getElem?_cons_succ,
    Option.getD_some] at h
  unfold pdistClaim at h
  norm_num at h

/-- C3 amended: the ordering operation is a stable sort of the valid points
by strictly descending-or-equal elevation — the output is a permutation of
the input sorted by the relation `b.z ≤ a.z`; no distance or ascent-penalty
computation is involved. -/
theorem claim_c3_amended : ∀ pts : List Punto,
    (ordenarPuntos pts).Perm pts ∧ List.Sorted ordenZ (ordenarPuntos pts) :=
  fun pts => ⟨List.perm_insertionSort ordenZ pts, List.sorted_insertionSort ordenZ pts⟩

/-- C9 counterexample: a gradient run with exactly 2 valid points — fewer
than the claimed minimum of 3 — does not raise; it succeeds and produces
one output record per point. -/
theorem claim_c9_counterexample :
    cuerpoGradiente [some ⟨0, 0, 5⟩, some ⟨1, 0, 3⟩] =
      Except.ok [⟨0, 0, 5⟩, ⟨1, 0, 3⟩] ∧
    processAlgorithmGradiente [some ⟨0, 0, 5⟩, some ⟨1, 0, 3⟩] =
      [⟨0, 0, 5⟩, ⟨1, 0, 3⟩] := by
  constructor <;> rfl

/-- A basin with fewer than 2 points yields no extremum pair (the skip at
lines 307-309 of `elongacion_algorithm.py`). -/
theorem agruparExtremos_corto (pts : List Punto) (h : pts.length < 2) :
    agruparExtremos pts = none := by
  match pts with
  | [] => rfl
  | [t] => rfl
  | p :: q :: rest => simp only [List.length_cons] at h; omega

/-- When no basin holds at least 2 associated points, the grouping step
produces no entry at all — the situation behind the raise at line 165. -/
theorem agruparPuntosPorCuenca_vacio (datos : List (ℚ × CuencaRaw)) (pts : List Punto)
    (dentro : CuencaRaw → Punto → Bool)
    (h : ∀ e ∈ datos, (pts.filter (dentro e.2)).length < 2) :
    agruparPuntosPorCuenca datos pts dentro = [] := by
  unfold agruparPuntosPorCuenca
  rw [List.filterMap_eq_nil_iff]
  intro e he
  rw [agruparExtremos_corto _ (h e he)]
  rfl

/-- C9 amended: the gradient pipeline's minimum is 2 valid points (not 3);
below it an internal `QgsProcessingException` is raised inside the try
block.  The elongation pipeline raises internally when it reads no valid
basins or no valid points, and also when valid basins and points exist but
no basin holds at least 2 associated points (the raise at line 165).  In
both algorithms `processAlgorithm`'s top-level handler catches the
exception and returns normally with an empty result, so no exception
escapes and no output records are produced. -/
theorem claim_c9_amended :
    (∀ raw : List (Option Punto), (raw.filterMap id).length < 2 →
      cuerpoGradiente raw = Except.error "No se encontraron suficientes puntos validos" ∧
      processAlgorithmGradiente raw = []) ∧
    (∀ (cuencasRaw : List CuencaRaw) (puntosRaw : List (Option Punto))
        (dentro : CuencaRaw → Punto → Bool),
      leerDatosCuencas cuencasRaw = [] ∨ puntosRaw.filterMap id = [] →
      cuerpoElongacion cuencasRaw puntosRaw dentro =
        Except.error "No se encontraron datos validos para procesar" ∧
      processAlgorithmElongacion cuencasRaw puntosRaw dentro = []) ∧
    (∀ (cuencasRaw : List CuencaRaw) (puntosRaw : List (Option Punto))
        (dentro : CuencaRaw → Punto → Bool),
      (∀ e ∈ leerDatosCuencas cuencasRaw,
        ((puntosRaw.filterMap id).filter (dentro e.2)).length < 2) →
      (cuerpoElongacion cuencasRaw puntosRaw dentro =
          Except.error "No se encontraron datos validos para procesar" ∨
       cuerpoElongacion cuencasRaw puntosRaw dentro =
          Except.error "No se pudieron asociar puntos con cuencas") ∧
      processAlgorithmElongacion cuencasRaw puntosRaw dentro = []) := by
  refine ⟨?_, ?_, ?_⟩
  · intro raw h
    have he : cuerpoGradiente raw =
        Except.error "No se encontraron suficientes puntos validos" := by
      unfold cuerpoGradiente leerPuntosOrdenados
      rw [if_pos h]
      rfl
    exact ⟨he, by unfold processAlgorithmGradiente; rw [he]⟩
  · intro cuencasRaw puntosRaw dentro h
    have he : cuerpoElongacion cuencasRaw puntosRaw dentro =
        Except.error "No se encontraron datos validos para procesar" := by
      unfold cuerpoElongacion
      rw [if_pos h]
    exact ⟨he, by unfold processAlgorithmElongacion; rw [he]⟩
  · intro cuencasRaw puntosRaw dentro h
    have hg : agruparPuntosPorCuenca (leerDatosCuencas cuencasRaw)
        (puntosRaw.filterMap id) dentro = [] :=
      agruparPuntosPorCuenca_vacio _ _ _ h
    by_cases h1 : leerDatosCuencas cuencasRaw = [] ∨ puntosRaw.filterMap id = []
    · have he : cuerpoElongacion cuencasRaw puntosRaw dentro =
          Except.error "No se encontraron datos validos para procesar" := by
        unfold cuerpoElongacion
        rw [if_pos h1]
      exact ⟨Or.inl he, by unfold processAlgorithmElongacion; rw [he]⟩
    · have he : cuerpoElongacion cuencasRaw puntosRaw dentro =
          Except.error "No se pudieron asociar puntos con cuencas" := by
        unfold cuerpoElongacion
        rw [if_neg h1, if_pos hg]
      exact ⟨Or.inr he, by unfold processAlgorithmElongacion; rw [he]⟩

/-- C9 witness: the amended statement evaluated on a single-valid-point
gradient run and on an elongation run with one valid basin and one valid
point — nonempty inputs, but no basin reaching 2 associated points. -/
theorem claim_c9_witness :
    (cuerpoGradiente [some ⟨0, 0, 5⟩, none] =
        Except.error "No se encontraron suficientes puntos validos" ∧
      processAlgorithmGradiente [some ⟨0, 0, 5⟩, none] = []) ∧
    ((cuerpoElongacion [⟨0, some 5⟩] [some ⟨0, 0, 1⟩] (fun _ _ => true) =
        Except.error "No se encontraron datos validos para procesar" ∨
      cuerpoElongacion [⟨0, some 5⟩] [some ⟨0, 0, 1⟩] (fun _ _ => true) =
        Except.error "No se pudieron asociar puntos con cuencas") ∧
      processAlgorithmElongacion [⟨0, some 5⟩] [some ⟨0, 0, 1⟩] (fun _ _ => true) = []) :=
  ⟨claim_c9_amended.1 [some ⟨0, 0, 5⟩, none] (by simp),
   claim_c9_amended.2.2 [⟨0, some 5⟩] [some ⟨0, 0, 1⟩] (fun _ _ => true)
     (by intro e _; simp)⟩

/-- Keys of the area-keyed dict after one assignment: unchanged when the key
exists, extended by the new key otherwise. -/
theorem insertarPorArea_keys (m : List (ℚ × CuencaRaw)) (a : ℚ) (f : CuencaRaw) :
    (insertarPorArea m a f).map Prod.fst =
      if m.any (fun e => e.1 = a) then m.map Prod.fst else m.map Prod.fst ++ [a] := by
  unfold insertarPorArea
  split
  · rw [List.map_map]
    apply List.map_congr_left
    intro e _
    by_cases he : e.1 = a
    · simp [he]
    · simp [he]
  · simp

/-- Dict assignment preserves distinctness of the area keys. -/
theorem insertarPorArea_nodup (m : List (ℚ × CuencaRaw)) (a : ℚ) (f : CuencaRaw)
    (h : (m.map Prod.fst).Nodup) : ((insertarPorArea m a f).map Prod.fst).Nodup := by
  rw [insertarPorArea_keys]
  split
  · exact h
  · next hany =>
    rw [List.nodup_append]
    refine ⟨h, List.nodup_singleton a, ?_⟩
    intro k hk hk1
    simp only [List.mem_singleton] at hk1
    subst hk1
    rw [List.mem_map] at hk
    obtain ⟨e, he, hea⟩ := hk
    exact hany (by simp only [List.any_eq_true]; exact ⟨e, he, by simp [hea]⟩)

/-- Invariant of the basin-reading fold: area keys stay distinct. -/
theorem foldlCuencas_nodup (feats : List CuencaRaw) :
    ∀ m : List (ℚ × CuencaRaw), (m.map Prod.fst).Nodup →
    ((feats.foldl (fun m f =>
        match f.area with
        | none => m
        | some a => if a ≤ 0 then m else insertarPorArea m a f) m).map Prod.fst).Nodup := by
  induction feats with
  | nil => intro m h; exact h
  | cons f feats ih =>
    intro m h
    simp only [List.foldl_cons]
    apply ih
    cases hf : f.area with
    | none => simpa [hf] using h
    | some a =>
      dsimp only
      split
      · exact h
      · exact insertarPorArea_nodup m a f h

/-- The association map built by `_leer_datos_cuencas` has pairwise distinct
area keys. -/
theorem leerDatosCuencas_nodup (feats : List CuencaRaw) :
    ((leerDatosCuencas feats).map Prod.fst).Nodup :=
  foldlCuencas_nodup feats [] (by simp)

/-- Lookup after an overwriting assignment, existing-key case. -/
theorem find_map_upd (a : ℚ) (f : CuencaRaw) :
    ∀ m : List (ℚ × CuencaRaw), m.any (fun e => e.1 = a) = true →
    ((m.map (fun e => if e.1 = a then (a, f) else e)).find?
      (fun e => decide (e.1 = a))) = some (a, f) := by
  intro m
  induction m with
  | nil => simp
  | cons e m ih =>
    intro hany
    by_cases he : e.1 = a
    · simp [List.find?, he]
    · have hm : m.any (fun e => e.1 = a) = true := by
        simp only [List.any_cons, he] at hany
        simpa using hany
      simp only [List.map_cons, if_neg he, List.find?, decide_eq_false he]
      exact ih hm

/-- Lookup after an appending assignment, fresh-key case. -/
theorem find_append_nomatch (a : ℚ) (f : CuencaRaw) :
    ∀ m : List (ℚ × CuencaRaw), m.any (fun e => e.1 = a) = false →
    ((m ++ [(a, f)]).find? (fun e => decide (e.1 = a))) = some (a, f) := by
  intro m
  induction m with
  | nil => simp
  | cons e m ih =>
    intro hany
    simp only [List.any_cons, Bool.or_eq_false_iff] at hany
    obtain ⟨he, hm⟩ := hany
    simp only [List.cons_append, List.find?, he]
    exact ih hm

/-- After assigning key `a` the dict maps `a` to the newly stored feature. -/
theorem buscar_insertar (m : List (ℚ × CuencaRaw)) (a : ℚ) (f : CuencaRaw) :
    buscarPorArea (insertarPorArea m a f) a = some f := by
  unfold insertarPorArea buscarPorArea
  split
  · next hany => rw [find_map_upd a f m hany]; rfl
  · next hany =>
    rw [find_append_nomatch a f m (by rwa [Bool.not_eq_true] at hany)]
    rfl

/-- Reading one more valid basin is one dict assignment keyed by its area. -/
theorem leerDatosCuencas_append (feats : List CuencaRaw) (f : CuencaRaw) (a : ℚ)
    (hf : f.area = some a) (ha : 0 < a) :
    leerDatosCuencas (feats ++ [f]) = insertarPorArea (leerDatosCuencas feats) a f := by
  unfold leerDatosCuencas
  rw [List.foldl_append]
  simp only [List.foldl_cons, List.foldl_nil, hf]
  rw [if_neg (not_le.mpr ha)]

/-- C10: `_leer_datos_cuencas` keys its association map by the exact area
value — keys are pairwise distinct (at most one entry per area value), a
valid basin read later overwrites any earlier basin with the same area, and
two valid basins of area 5 yield a single entry (holding the later one), so
the output can have strictly fewer records than the valid input basins. -/
theorem claim_c10_area_key :
    (∀ feats : List CuencaRaw, ((leerDatosCuencas feats).map Prod.fst).Nodup) ∧
    (∀ (feats : List CuencaRaw) (f : CuencaRaw) (a : ℚ), f.area = some a → 0 < a →
      buscarPorArea (leerDatosCuencas (feats ++ [f])) a = some f) ∧
    (leerDatosCuencas [⟨0, some 5⟩, ⟨1, some 5⟩]).length = 1 ∧
    buscarPorArea (leerDatosCuencas [⟨0, some 5⟩, ⟨1, some 5⟩]) 5 = some ⟨1, some 5⟩ := by
  refine ⟨leerDatosCuencas_nodup, ?_, ?_, ?_⟩
  · intro feats f a hf ha
    rw [leerDatosCuencas_append feats f a hf ha]
    exact buscar_insertar _ a f
  · rfl
  · rfl

/-- C10 witness: the overwrite property evaluated on two basins that share
area 5. -/
theorem claim_c10_witness :
    buscarPorArea (leerDatosCuencas ([⟨0, some 5⟩] ++ [⟨1, some 5⟩])) 5 =
      some ⟨1, some 5⟩ :=
  claim_c10_area_key.2.1 [⟨0, some 5⟩] ⟨1, some 5⟩ 5 rfl (by norm_num)

/-- Python's `max(key=f)` returns an element of the list. -/
theorem pymaxBy_mem : ∀ (tl : List Punto) (f : Punto → ℚ) (hd : Punto),
    pymaxBy f hd tl ∈ hd :: tl := by
  intro tl
  induction tl with
  | nil => intro f hd; simp [pymaxBy]
  | cons a tl ih =>
    intro f hd
    have hstep : pymaxBy f hd (a :: tl) = pymaxBy f (if f hd < f a then a else hd) tl := rfl
    rw [hstep]
    rcases List.mem_cons.mp (ih f (if f hd < f a then a else hd)) with h | h
    · rw [h]
      split
      · exact List.mem_cons_of_mem _ (List.mem_cons_self a tl)
      · exact List.mem_cons_self hd _
    · exact List.mem_cons_of_mem _ (List.mem_cons_of_mem a h)

/-- Python's `max(key=f)` returns an element with maximal key. -/
theorem pymaxBy_le : ∀ (tl : List Punto) (f : Punto → ℚ) (hd p : Punto),
    p ∈ hd :: tl → f p ≤ f (pymaxBy f hd tl) := by
  intro tl
  induction tl with
  | nil =>
    intro f hd p hp
    rcases List.mem_cons.mp hp with h | h
    · subst h; simp [pymaxBy]
    · simp at h
  | cons a tl ih =>
    intro f hd p hp
    have hstep : pymaxBy f hd (a :: tl) = pymaxBy f (if f hd < f a then a else hd) tl := rfl
    rw [hstep]
    rcases List.mem_cons.mp hp with h | h
    · subst h
      refine le_trans ?_ (ih f _ _ (List.mem_cons_self _ tl))
      split
      · next hlt => exact le_of_lt hlt
      · exact le_refl _
    · rcases List.mem_cons.mp h with h2 | h2
      · subst h2
        refine le_trans ?_ (ih f _ _ (List.mem_cons_self _ tl))
        split
        · exact le_refl _
        · next hnlt => exact le_of_not_lt hnlt
      · exact ih f _ p (List.mem_cons_of_mem _ h2)

/-- Python's `min(key=f)` returns an element of the list. -/
theorem pyminBy_mem : ∀ (tl : List Punto) (f : Punto → ℚ) (hd : Punto),
    pyminBy f hd tl ∈ hd :: tl := by
  intro tl
  induction tl with
  | nil => intro f hd; simp [pyminBy]
  | cons a tl ih =>
    intro f hd
    have hstep : pyminBy f hd (a :: tl) = pyminBy f (if f a < f hd then a else hd) tl := rfl
    rw [hstep]
    rcases List.mem_cons.mp (ih f (if f a < f hd then a else hd)) with h | h
    · rw [h]
      split
      · exact List.mem_cons_of_mem _ (List.mem_cons_self a tl)
      · exact List.mem_cons_self hd _
    · exact List.mem_cons_of_mem _ (List.mem_cons_of_mem a h)

/-- Python's `min(key=f)` returns an element with minimal key. -/
theorem pyminBy_le : ∀ (tl : List Punto) (f : Punto → ℚ) (hd p : Punto),
    p ∈ hd :: tl → f (pyminBy f hd tl) ≤ f p := by
  intro tl
  induction tl with
  | nil =>
    intro f hd p hp
    rcases List.mem_cons.mp hp with h | h
    · subst h; simp [pyminBy]
    · simp at h
  | cons a tl ih =>
    intro f hd p hp
    have hstep : pyminBy f hd (a :: tl) = pyminBy f (if f a < f hd then a else hd) tl := rfl
    rw [hstep]
    rcases List.mem_cons.mp hp with h | h
    · subst h
      refine le_trans (ih f _ _ (List.mem_cons_self _ tl)) ?_
      split
      · next hlt => exact le_of_lt hlt
      · exact le_refl _
    · rcases List.mem_cons.mp h with h2 | h2
      · subst h2
        refine le_trans (ih f _ _ (List.mem_cons_self _ tl)) ?_
        split
        · exact le_refl _
        · next hnlt => exact le_of_not_lt hnlt
      · exact ih f _ p (List.mem_cons_of_mem _ h2)

/-- The max-side tie-break selects among the tied points. -/
theorem desempateMax_mem (empatados : List Punto) (fb : Punto) (hne : empatados ≠ []) :
    desempateMax empatados fb ∈ empatados := by
  match empatados with
  | [] => exact absurd rfl hne
  | [t] => exact List.mem_singleton.mpr rfl
  | t :: u :: r => exact pymaxBy_mem (u :: r) (fun s => s.x) t

/-- The max-side tie-break selects a point of maximal `x`. -/
theorem desempateMax_ge (empatados : List Punto) (fb : Punto) :
    ∀ p ∈ empatados, p.x ≤ (desempateMax empatados fb).x := by
  match empatados with
  | [] => intro p hp; simp at hp
  | [t] =>
    intro p hp
    rw [List.mem_singleton.mp hp]
    simp [desempateMax]
  | t :: u :: r => exact fun p hp => pymaxBy_le (u :: r) (fun s => s.x) t p hp

/-- The min-side tie-break selects among the tied points. -/
theorem desempateMin_mem (empatados : List Punto) (fb : Punto) (hne : empatados ≠ []) :
    desempateMin empatados fb ∈ empatados := by
  match empatados with
  | [] => exact absurd rfl hne
  | [t] => exact List.mem_singleton.mpr rfl
  | t :: u :: r => exact pyminBy_mem (u :: r) (fun s => s.x) t

/-- The min-side tie-break selects a point of minimal `x`. -/
theorem desempateMin_le (empatados : List Punto) (fb : Punto) :
    ∀ p ∈ empatados, (desempateMin empatados fb).x ≤ p.x := by
  match empatados with
  | [] => intro p hp; simp at hp
  | [t] =>
    intro p hp
    rw [List.mem_singleton.mp hp]
    simp [desempateMin]
  | t :: u :: r => exact fun p hp => pyminBy_le (u :: r) (fun s => s.x) t p hp

/-- C7: basins with fewer than 2 associated points yield no extremum pair
(skipped with a warning, not an error); otherwise, with `zM` the maximal and
`zm` the minimal elevation of the basin's points, the selected max-elevation
point lies within `1e-6` of `zM` and has the largest `x` among all points
within that tolerance, and dually the selected min-elevation point has the
smallest `x` among the points within `1e-6` of `zm`. -/
theorem claim_c7_extremos : ∀ pts : List Punto,
    (pts.length < 2 → agruparExtremos pts = none) ∧
    (∀ pmax pmin, agruparExtremos pts = some (pmax, pmin) →
      (pmax ∈ pts ∧ pmin ∈ pts) ∧
      (∃ zM, (∀ p ∈ pts, p.z ≤ zM) ∧ (∃ p0 ∈ pts, p0.z = zM) ∧
        |pmax.z - zM| < 1e-6 ∧ ∀ p ∈ pts, |p.z - zM| < 1e-6 → p.x ≤ pmax.x) ∧
      (∃ zm, (∀ p ∈ pts, zm ≤ p.z) ∧ (∃ p0 ∈ pts, p0.z = zm) ∧
        |pmin.z - zm| < 1e-6 ∧ ∀ p ∈ pts, |p.z - zm| < 1e-6 → pmin.x ≤ p.x)) := by
  intro pts
  match pts with
  | [] => exact ⟨fun _ => rfl, fun pmax pmin h => by simp [agruparExtremos] at h⟩
  | [t] => exact ⟨fun _ => rfl, fun pmax pmin h => by simp [agruparExtremos] at h⟩
  | p :: q :: rest =>
    constructor
    · intro hlen
      simp only [List.length_cons] at hlen
      omega
    · intro pmax pmin h
      simp only [agruparExtremos, Option.some.injEq, Prod.mk.injEq] at h
      obtain ⟨hMax, hMin⟩ := h
      subst hMax
      subst hMin
      have hfmem := pymaxBy_mem (q :: rest) (fun t => t.z) p
      have hgmem := pyminBy_mem (q :: rest) (fun t => t.z) p
      have hfilmemM : pymaxBy (fun t => t.z) p (q :: rest) ∈
          (p :: q :: rest).filter
            (fun t => |t.z - (pymaxBy (fun t => t.z) p (q :: rest)).z| < 1e-6) := by
        refine List.mem_filter.mpr ⟨hfmem, ?_⟩
        rw [decide_eq_true_eq, sub_self, abs_zero]
        norm_num
      have hfilmemm : pyminBy (fun t => t.z) p (q :: rest) ∈
          (p :: q :: rest).filter
            (fun t => |t.z - (pyminBy (fun t => t.z) p (q :: rest)).z| < 1e-6) := by
        refine List.mem_filter.mpr ⟨hgmem, ?_⟩
        rw [decide_eq_true_eq, sub_self, abs_zero]
        norm_num
      have hfilneM := List.ne_nil_of_mem hfilmemM
      have hfilnem := List.ne_nil_of_mem hfilmemm
      refine ⟨⟨?_, ?_⟩, ?_, ?_⟩
      · exact List.mem_of_mem_filter (desempateMax_mem _ _ hfilneM)
      · exact List.mem_of_mem_filter (desempateMin_mem _ _ hfilnem)
      · refine ⟨(pymaxBy (fun t => t.z) p (q :: rest)).z,
          fun t ht => pymaxBy_le (q :: rest) (fun t => t.z) p t ht,
          ⟨pymaxBy (fun t => t.z) p (q :: rest), hfmem, rfl⟩, ?_, ?_⟩
        · have := List.of_mem_filter
            (desempateMax_mem _ (pymaxBy (fun t => t.z) p (q :: rest)) hfilneM)
          rwa [decide_eq_true_eq] at this
        · intro t ht htol
          refine desempateMax_ge _ _ t (List.mem_filter.mpr ⟨ht, ?_⟩)
          rwa [decide_eq_true_eq]
      · refine ⟨(pyminBy (fun t => t.z) p (q :: rest)).z,
          fun t ht => pyminBy_le (q :: rest) (fun t => t.z) p t ht,
          ⟨pyminBy (fun t => t.z) p (q :: rest), hgmem, rfl⟩, ?_, ?_⟩
        · have := List.of_mem_filter
            (desempateMin_mem _ (pyminBy (fun t => t.z) p (q :: rest)) hfilnem)
          rwa [decide_eq_true_eq] at this
        · intro t ht htol
          refine desempateMin_le _ _ t (List.mem_filter.mpr ⟨ht, ?_⟩)
          rwa [decide_eq_true_eq]

/-- C7 witness: a single-point basin is skipped. -/
theorem claim_c7_witness : agruparExtremos [⟨0, 0, 1⟩] = none :=
  (claim_c7_extremos [⟨0, 0, 1⟩]).1 (by norm_num)

/-- The accumulation loop emits one distance per remaining point. -/
theorem distanciasDesde_length : ∀ (rest : List Punto) (p : Punto) (acc : ℝ),
    (distanciasDesde p acc rest).length = rest.length := by
  intro rest
  induction rest with
  | nil => intro p acc; simp [distanciasDesde]
  | cons q rest ih => intro p acc; simp [distanciasDesde, ih]

/-- Aligned with the points, consecutive cumulative distances differ by the
clamped 2D segment length. -/
theorem distanciasDesde_zipChain : ∀ (rest : List Punto) (p : Punto) (acc : ℝ),
    List.Chain' (fun a b : ℝ × Punto => b.1 = a.1 + max (1e-6 : ℝ) (distanciaSegmento a.2 b.2))
      ((acc, p) :: (distanciasDesde p acc rest).zip rest) := by
  intro rest
  induction rest with
  | nil => intro p acc; simp [distanciasDesde]
  | cons q rest ih =>
    intro p acc
    simp only [distanciasDesde, List.zip_cons_cons]
    rw [List.chain'_cons]
    exact ⟨rfl, ih q _⟩

/-- Thanks to the `1e-6` clamp every increment is positive, so the
cumulative distances increase strictly. -/
theorem distanciasDesde_mono : ∀ (rest : List Punto) (p : Punto) (acc : ℝ),
    List.Chain' (· < ·) (acc :: distanciasDesde p acc rest) := by
  intro rest
  induction rest with
  | nil => intro p acc; simp [distanciasDesde]
  | cons q rest ih =>
    intro p acc
    simp only [distanciasDesde]
    rw [List.chain'_cons]
    refine ⟨?_, ih q _⟩
    have hpos : (0 : ℝ) < max (1e-6 : ℝ) (distanciaSegmento p q) :=
      lt_of_lt_of_le (by norm_num) (le_max_left _ _)
    linarith

/-- C6 counterexample: the code accumulates 2D horizontal distances, not 3D.
For the two points (0,0,0) and (3,4,12) it returns `[0, 5]`
(`sqrt(3²+4²) = 5`) while the claimed 3D accumulation gives `[0, 13]`
(`sqrt(3²+4²+12²) = 13`). -/
theorem claim_c6_counterexample :
    calcularDistanciasAcumuladas [⟨0, 0, 0⟩, ⟨3, 4, 12⟩] ≠
      distanciasAcumuladas3dClaim [⟨0, 0, 0⟩, ⟨3, 4, 12⟩] := by
  have h1 : calcularDistanciasAcumuladas [⟨0, 0, 0⟩, ⟨3, 4, 12⟩] = [0, 5] := by
    simp only [calcularDistanciasAcumuladas, distanciasDesde, distanciaSegmento]
    norm_num
    rw [show ((25 : ℝ)) = 5 ^ 2 by norm_num, Real.sqrt_sq (by norm_num)]
    norm_num
  have h2 : distanciasAcumuladas3dClaim [⟨0, 0, 0⟩, ⟨3, 4, 12⟩] = [0, 13] := by
    simp only [distanciasAcumuladas3dClaim, distanciasDesde3dClaim]
    norm_num
    rw [show ((169 : ℝ)) = 13 ^ 2 by norm_num, Real.sqrt_sq (by norm_num)]
    norm_num
  rw [h1, h2]
  norm_num

/-- C6 amended: `_calcular_distancias_acumuladas` starts at 0 and adds the
2D HORIZONTAL segment length `sqrt(dx²+dy²)` (elevation unused), clamping
each segment below `1e-6` to `1e-6`, so the array has one entry per point
and is strictly increasing. -/
theorem claim_c6_amended : ∀ pts : List Punto, pts ≠ [] →
    (calcularDistanciasAcumuladas pts).length = pts.length ∧
    (calcularDistanciasAcumuladas pts).getD 0 0 = 0 ∧
    ((calcularDistanciasAcumuladas pts).zip pts).Chain'
      (fun a b => b.1 = a.1 + max (1e-6 : ℝ) (distanciaSegmento a.2 b.2)) ∧
    (calcularDistanciasAcumuladas pts).Chain' (fun a b => a < b) := by
  intro pts hne
  match pts with
  | [] => exact absurd rfl hne
  | p :: rest =>
    refine ⟨?_, rfl, ?_, ?_⟩
    · simp [calcularDistanciasAcumuladas, distanciasDesde_length]
    · simp only [calcularDistanciasAcumuladas, List.zip_cons_cons]
      exact distanciasDesde_zipChain rest p 0
    · exact distanciasDesde_mono rest p 0

/-- C6 witness: the amended statement evaluated on the two-point profile of
the counterexample. -/
theorem claim_c6_witness :
    (calcularDistanciasAcumuladas [⟨0, 0, 0⟩, ⟨3, 4, 12⟩]).length = 2 ∧
    (calcularDistanciasAcumuladas [⟨0, 0, 0⟩, ⟨3, 4, 12⟩]).getD 0 0 = 0 := by
  have h := claim_c6_amended [⟨0, 0, 0⟩, ⟨3, 4, 12⟩] (by simp)
  exact ⟨h.1, h.2.1⟩

/-- Entries of the dict after an assignment: an old entry or one keyed `a`. -/
theorem insertarPorArea_mem (m : List (ℚ × CuencaRaw)) (a : ℚ) (f : CuencaRaw)
    (e : ℚ × CuencaRaw) (he : e ∈ insertarPorArea m a f) : e ∈ m ∨ e.1 = a := by
  unfold insertarPorArea at he
  split at he
  · rw [List.mem_map] at he
    obtain ⟨x, hx, hxe⟩ := he
    by_cases hxa : x.1 = a
    · right
      rw [if_pos hxa] at hxe
      rw [← hxe]
    · left
      rw [if_neg hxa] at hxe
      rwa [← hxe]
  · rw [List.mem_append] at he
    rcases he with h | h
    · left; exact h
    · right
      rw [List.mem_singleton] at h
      rw [h]

/-- Invariant of the basin-reading fold: every stored key is positive. -/
theorem foldlCuencas_pos (feats : List CuencaRaw) :
    ∀ m : List (ℚ × CuencaRaw), (∀ e ∈ m, 0 < e.1) →
    ∀ e ∈ feats.foldl (fun m f =>
        match f.area with
        | none => m
        | some a => if a ≤ 0 then m else insertarPorArea m a f) m, 0 < e.1 := by
  induction feats with
  | nil => intro m h; exact h
  | cons f feats ih =>
    intro m h
    simp only [List.foldl_cons]
    apply ih
    cases hf : f.area with
    | none => simpa [hf] using h
    | some a =>
      dsimp only
      split
      · exact h
      · next ha =>
        intro e he
        rcases insertarPorArea_mem m a f e he with hm | hk
        · exact h e hm
        · rw [hk]
          exact not_le.mp ha

/-- Every basin surviving `_leer_datos_cuencas` has a positive area. -/
theorem leerDatosCuencas_pos (feats : List CuencaRaw) :
    ∀ e ∈ leerDatosCuencas feats, 0 < e.1 :=
  foldlCuencas_pos feats [] (by simp)

/-- C5: for every basin with positive area, the emitted equivalent diameter
is the nonnegative root of `4·area/π` (i.e. `2·sqrt(area/π)`), the
elongation index satisfies `Re · distance_3d = equivalent_diameter` whenever
the 3D distance between the selected extremal points is nonzero, `Re = 0`
when that distance is zero (the basin is still emitted — the computation is
total), and basins with null or nonpositive area are excluded beforehand. -/
theorem claim_c5_elongacion :
    (∀ (area : ℚ) (punto_max punto_min : Punto), 0 < area →
      (calcularElongacionCuenca area punto_max punto_min).diametro_equivalente ^ 2 =
        4 * (area : ℝ) / Real.pi ∧
      0 ≤ (calcularElongacionCuenca area punto_max punto_min).diametro_equivalente ∧
      ((calcularElongacionCuenca area punto_max punto_min).distancia_max = 0 →
        (calcularElongacionCuenca area punto_max punto_min).indice_elongacion = 0) ∧
      ((calcularElongacionCuenca area punto_max punto_min).distancia_max ≠ 0 →
        (calcularElongacionCuenca area punto_max punto_min).indice_elongacion *
          (calcularElongacionCuenca area punto_max punto_min).distancia_max =
          (calcularElongacionCuenca area punto_max punto_min).diametro_equivalente)) ∧
    (∀ (feats : List CuencaRaw) (e : ℚ × CuencaRaw), e ∈ leerDatosCuencas feats → 0 < e.1) := by
  constructor
  · intro area punto_max punto_min ha
    have ha' : (0 : ℝ) < (area : ℝ) := by exact_mod_cast ha
    unfold calcularElongacionCuenca
    dsimp only
    refine ⟨?_, ?_, ?_, ?_⟩
    · rw [mul_pow, Real.sq_sqrt (by positivity)]
      ring
    · positivity
    · intro h0
      rw [h0]
      simp
    · intro hne
      have hpos : 0 < Real.sqrt (((punto_max.x - punto_min.x : ℚ) : ℝ) ^ 2 +
          ((punto_max.y - punto_min.y : ℚ) : ℝ) ^ 2 +
          ((punto_max.z - punto_min.z : ℚ) : ℝ) ^ 2) :=
        lt_of_le_of_ne (Real.sqrt_nonneg _) (Ne.symm hne)
      rw [if_pos hpos]
      exact div_mul_cancel₀ _ hne
  · exact fun feats e he => leerDatosCuencas_pos feats e he

/-- C5 witness: the diameter identity evaluated at area 1 with extremal
points (0,0,1) and (0,0,0). -/
theorem claim_c5_witness :
    (calcularElongacionCuenca 1 ⟨0, 0, 1⟩ ⟨0, 0, 0⟩).diametro_equivalente ^ 2 =
      4 * ((1 : ℚ) : ℝ) / Real.pi :=
  (claim_c5_elongacion.1 1 ⟨0, 0, 1⟩ ⟨0, 0, 0⟩ (by norm_num)).1
